import Mathlib

/-!
Shallow embedding of python-mip (file `mip/model.py`): the linear-expression
algebra (`LinExpr`), variable handles (`Var`), the cut pool (`CutPool`) and the
model orchestration (`Model`), together with proofs about the claims of the
specification.  Python int/float scalars are embedded as exact rationals; the
numeric literals `1e-8` and `1e-12` of the source are embedded as the exact
rationals they denote in the source text (no claim here depends on the
difference between a decimal literal and its binary-float rounding).
-/

namespace Mip

/-- Python numeric scalars (ints and floats) are embedded as rationals. -/
abbrev Coef := ℚ

/-- Sense string stored by `Var.__le__` and used by `LinExpr.__mul__`.
The constants module `mip.constants` is not part of the provided source, but
`Var.__le__` in `model.py` stores the literal `"<"`, fixing the value. -/
def LESS_OR_EQUAL : String := "<"

/-- Sense string stored by `Var.__ge__`; the literal `">"` in `model.py`. -/
def GREATER_OR_EQUAL : String := ">"

/-- Sense string stored by `Var.__eq__`; the literal `"="` in `model.py`. -/
def EQUAL : String := "="

/-- Variable kind `"B"`; the letter is documented in the `add_var` and
`Var.type` docstrings of `model.py`. -/
def BINARY : String := "B"

/-- Variable kind `"C"`. -/
def CONTINUOUS : String := "C"

/-- Variable kind `"I"`. -/
def INTEGER : String := "I"

/-- Modelled from the spec: `EPS` is imported from the missing
`mip.constants` module; the spec fixes the near-zero elimination tolerance
at 1e-8 (the same literal `1e-8` appears inline in `LinExpr.__mul__`). -/
def EPS : Coef := 1 / 100000000

/-- A decision-variable handle (`Var.__init__`): the owning model (embedded
as an opaque numeric identity), the registry index, and the name.
`Var.__hash__` returns `idx` and `Var.__eq__` returns a `LinExpr` (which is
always truthy as a Python object), so a Python dict keyed by `Var` treats two
handles as the same key exactly when their `idx` agree; accordingly the
expression dictionaries below are keyed by `idx` alone. -/
structure Var where
  modelId : Nat
  idx : Nat
  name : String
deriving DecidableEq, Repr

/-- Lookup in an insertion-ordered Python dict (`k in d` / `d[k]`). -/
def dictLookup {α β : Type} [DecidableEq α] (k : α) : List (α × β) → Option β
  | [] => none
  | p :: rest => if p.1 = k then some p.2 else dictLookup k rest

/-- Assignment `d[k] = v` in an insertion-ordered Python dict: a present key
keeps its position, an absent key is appended at the end. -/
def dictSet {α β : Type} [DecidableEq α] (k : α) (v : β) : List (α × β) → List (α × β)
  | [] => [(k, v)]
  | p :: rest => if p.1 = k then (k, v) :: rest else p :: dictSet k v rest

/-- Deletion `del d[k]` in an insertion-ordered Python dict. -/
def dictErase {α β : Type} [DecidableEq α] (k : α) : List (α × β) → List (α × β)
  | [] => []
  | p :: rest => if p.1 = k then rest else p :: dictErase k rest

/-- A linear expression (`LinExpr`): constant, insertion-ordered coefficient
dictionary keyed by variable index, and sense string (`""` when absent). -/
structure LinExpr where
  const : Coef
  expr : List (Nat × Coef)
  sense : String
deriving DecidableEq, Repr

/-- The empty expression `LinExpr()`. -/
def LinExpr.empty : LinExpr := { const := 0, expr := [], sense := "" }

/-- Core of `LinExpr.add_var`, keyed by the variable index (the only part of
a `Var` key a Python dict observes, see `Var`): merge into a present term,
delete it when the merged coefficient lands within `[-EPS, EPS]`, append a new
term otherwise. -/
def LinExpr.addIdx (e : LinExpr) (k : Nat) (coeff : Coef) : LinExpr :=
  match dictLookup k e.expr with
  | some c =>
    if -EPS ≤ c + coeff ∧ c + coeff ≤ EPS then
      { e with expr := dictErase k e.expr }
    else
      { e with expr := dictSet k (c + coeff) e.expr }
  | none => { e with expr := e.expr ++ [(k, coeff)] }

/-- `LinExpr.add_var(var, coeff)`: adds a variable with a coefficient. -/
def LinExpr.add_var (e : LinExpr) (v : Var) (coeff : Coef) : LinExpr :=
  e.addIdx v.idx coeff

/-- `LinExpr.add_const(const)`. -/
def LinExpr.add_const (e : LinExpr) (c : Coef) : LinExpr :=
  { e with const := e.const + c }

/-- `LinExpr.add_expr(expr, coeff)`: folds the terms of `other` (scaled by
`coeff`) into the receiver and accumulates the scaled constant. -/
def LinExpr.add_expr (e other : LinExpr) (coeff : Coef) : LinExpr :=
  other.expr.foldl (fun acc p => acc.addIdx p.1 (p.2 * coeff))
    { e with const := e.const + other.const * coeff }

/-- `LinExpr.__init__(variables, coeffs, const, sense)`: coefficients equal to
exactly zero are skipped, all others are fed through `add_var`. -/
def LinExpr.init (varList : List Var) (coeffs : List Coef)
    (const : Coef) (sense : String) : LinExpr :=
  (List.zip varList coeffs).foldl
    (fun acc p => if p.2 = 0 then acc else acc.add_var p.1 p.2)
    { const := const, expr := [], sense := sense }

/-- `LinExpr.copy()`: a fresh expression with the same fields (in this
embedding expressions are values, so this is the identity). -/
def LinExpr.copy (e : LinExpr) : LinExpr := e

/-- `LinExpr.__mul__(other)`: the returned product is a copy with constant and
every coefficient scaled; afterwards the two successive (non-exclusive) `if`
statements of the source mutate `self.sense`.  The embedding returns the pair
(returned product, state of the receiver after the call). -/
def LinExpr.mul (e : LinExpr) (k : Coef) : LinExpr × LinExpr :=
  let result : LinExpr :=
    { const := e.const * k, expr := e.expr.map (fun p => (p.1, p.2 * k)), sense := e.sense }
  let s1 := if e.sense = GREATER_OR_EQUAL ∧ k ≤ -(1 / 100000000) then LESS_OR_EQUAL else e.sense
  let s2 := if s1 = LESS_OR_EQUAL ∧ k ≤ -(1 / 100000000) then GREATER_OR_EQUAL else s1
  (result, { e with sense := s2 })

/-- `LinExpr.equals(other)`: compares constants, senses and term counts, then
walks the items of `self.expr`; note that the source body looks each variable
up in `self.expr` again (never in `other.expr`), so `oc` is the coefficient of
the same expression being iterated. -/
def LinExpr.equals (a b : LinExpr) : Bool :=
  if a.const ≠ b.const then false
  else if a.sense ≠ b.sense then false
  else if a.expr.length ≠ b.expr.length then false
  else a.expr.all (fun p =>
    match dictLookup p.1 a.expr with
    | none => false
    | some oc => decide (|p.2 - oc| ≤ 1 / 1000000000000))

/-- One element of the tuple built by `LinExpr.__hash__`.  Python ints and
floats of the same numeric value hash alike, so both are embedded as `Coef`;
the sense string is the remaining kind of element. -/
inductive HashAtom where
  | num (q : Coef)
  | str (s : String)
deriving DecidableEq, Repr

/-- Numeric component of a hash atom (0 for a sense string); proof-side
projection used to read coefficients back off a hash tuple. -/
def HashAtom.toCoef : HashAtom → Coef
  | HashAtom.num q => q
  | HashAtom.str _ => 0

/-- `LinExpr.__hash__` builds the tuple holding the variable indices (in dict
order), then the coefficients (in dict order), then the constant, then the
sense, and returns the Python hash of that tuple.  The embedding keeps the
tuple itself: Python's `hash` is a fixed function of it, so equal tuples give
equal hash codes, and the cut-pool buckets below are keyed by this tuple. -/
def LinExpr.hashEl (e : LinExpr) : List HashAtom :=
  e.expr.map (fun p => HashAtom.num (p.1 : Coef))
    ++ e.expr.map (fun p => HashAtom.num p.2)
    ++ [HashAtom.num e.const, HashAtom.str e.sense]

/-- `CutPool.__init__`: the ordered store of accepted cuts and the mapping
from hash code (embedded as the hash tuple, see `LinExpr.hashEl`) to the list
of positions sharing it (`defaultdict(list)`). -/
structure CutPool where
  cuts : List LinExpr
  pos : List (List HashAtom × List Nat)
deriving Repr

/-- `CutPool.add(cut)`: scan the bucket of the cut's hash; if a stored cut at
one of those positions satisfies `equals`, return `False` without mutating
state; otherwise record the position and append the cut, returning `True`. -/
def CutPool.add (pool : CutPool) (cut : LinExpr) : CutPool × Bool :=
  let h := cut.hashEl
  let l := (dictLookup h pool.pos).getD []
  if l.any (fun p => ((pool.cuts[p]?).map (fun c => c.equals cut)).getD false) then
    (pool, false)
  else
    ({ cuts := pool.cuts ++ [cut],
       pos := dictSet h (l ++ [pool.cuts.length]) pool.pos }, true)

/-- Modelled from the spec: the optimization status constants live in the
missing `mip.constants` module; `model.py` only compares them for equality
(the docstrings list OPTIMAL(0), ERROR(-1), INFEASIBLE(1), UNBOUNDED(2),
FEASIBLE(3), INT_INFEASIBLE(4), NO_SOLUTION_FOUND(5), plus LOADED and CUTOFF),
so they are embedded as a plain inductive type. -/
inductive Status where
  | LOADED
  | OPTIMAL
  | ERROR
  | INFEASIBLE
  | UNBOUNDED
  | FEASIBLE
  | INT_INFEASIBLE
  | NO_SOLUTION_FOUND
  | CUTOFF
deriving DecidableEq, Repr

/-- `Var.x`: the guard chain of the source raises `SolutionNotAvailable` for
LOADED, INFEASIBLE, CUTOFF, UNBOUNDED and NO_SOLUTION_FOUND (with the listed
messages) and otherwise forwards to `solver.var_get_x`; embedded as a function
of the model status and of the value the backend would return. -/
def Var.x (status : Status) (solverValue : Coef) : Except String Coef :=
  if status = Status.LOADED then
    Except.error "Model was not optimized, solution not available."
  else if status = Status.INFEASIBLE ∨ status = Status.CUTOFF then
    Except.error "Infeasible model, solution not available."
  else if status = Status.UNBOUNDED then
    Except.error "Unbounded model, solution not available."
  else if status = Status.NO_SOLUTION_FOUND then
    Except.error "Solution not found during optimization."
  else
    Except.ok solverValue

/-- `Var.xi(i)`: same guard chain as `Var.x`, then forwards to
`solver.var_get_xi`. -/
def Var.xi (status : Status) (solverValue : Coef) : Except String Coef :=
  if status = Status.LOADED then
    Except.error "Model was not optimized, solution not available."
  else if status = Status.INFEASIBLE ∨ status = Status.CUTOFF then
    Except.error "Infeasible model, solution not available."
  else if status = Status.UNBOUNDED then
    Except.error "Unbounded model, solution not available."
  else if status = Status.NO_SOLUTION_FOUND then
    Except.error "Solution not found during optimization."
  else
    Except.ok solverValue

/-- `Var.rc`: raises unless the status is exactly OPTIMAL, else forwards to
`solver.var_get_rc`. -/
def Var.rc (status : Status) (solverValue : Coef) : Except String Coef :=
  if status ≠ Status.OPTIMAL then
    Except.error "Solution not available."
  else
    Except.ok solverValue

/-- Setter of `Model.cuts`: when the value is outside [0, 3] a warning is
printed (its text says the old setting is kept), but the following assignment
stores the new value unconditionally.  Returns the stored value and whether
the warning fired; `oldCuts` is the prior stored setting (read only for the
warning text). -/
def Model.cutsSetter (oldCuts cuts : Int) : Int × Bool :=
  if cuts < 0 ∨ cuts > 3 then (cuts, true) else (cuts, false)

/-- Column data held by the backend for one variable. -/
structure VarData where
  name : String
  lb : Coef
  ub : Coef
  obj : Coef
  var_type : String
deriving DecidableEq, Repr

/-- Row data held by the backend for one constraint. -/
structure ConstrData where
  name : String
  expr : LinExpr
deriving DecidableEq, Repr

/-- Modelled from the spec: the concrete backends (`mip.cbc`, `mip.gurobi`)
are not under the provided source.  Per the backend capability contract the
solver stores the columns (name, bounds, objective coefficient, kind), the
rows (name and body expression) and the objective constant, and
`add_var`/`add_constr` return the newly assigned index. -/
structure SolverState where
  cols : List VarData
  rows : List ConstrData
  objective_const : Coef
deriving DecidableEq, Repr

/-- `Model`: registry state of `Model.__init__` (ordered handle lists, name
maps) plus the backend state; `objId` is the Python object identity of the
model, recorded into the handles it creates. -/
structure Model where
  objId : Nat
  name : String
  sense : String
  vars : List Var
  vars_by_name : List (String × Nat)
  constrs : List (Nat × String)
  constrs_by_name : List (String × Nat)
  solver : SolverState
deriving DecidableEq, Repr

/-- `Model.__init__` (registry part): empty registries and a fresh backend. -/
def Model.init (objId : Nat) (name : String) (sense : String) : Model :=
  { objId := objId, name := name, sense := sense,
    vars := [], vars_by_name := [], constrs := [], constrs_by_name := [],
    solver := { cols := [], rows := [], objective_const := 0 } }

/-- Zero-padded decimal of width 11, as in the format `"C{:011d}"`. -/
def zeroPad11 (n : Nat) : String :=
  let s := toString n
  String.mk (List.replicate (11 - s.length) '0') ++ s

/-- `Model.add_var(name, lb, ub, obj, var_type)`: a binary kind forces the
bounds to [0, 1]; a blank name is synthesized from the current column count;
the backend assigns the next column index; the new handle is appended to the
registry list and recorded in the name map. -/
def Model.add_var (m : Model) (name : String) (lb ub obj : Coef)
    (var_type : String) : Model × Var :=
  let lb := if var_type = BINARY then (0 : Coef) else lb
  let ub := if var_type = BINARY then (1 : Coef) else ub
  let name := if name.trim.length = 0 then "C" ++ zeroPad11 m.solver.cols.length else name
  let idx := m.solver.cols.length
  let v : Var := { modelId := m.objId, idx := idx, name := name }
  ({ m with
      solver := { m.solver with
        cols := m.solver.cols
          ++ [{ name := name, lb := lb, ub := ub, obj := obj, var_type := var_type }] },
      vars := m.vars ++ [v],
      vars_by_name := dictSet name idx m.vars_by_name },
   v)

/-- Argument of `Model.add_constr`: the Python caller may hand it a `bool`
(a degenerate comparison result) or a `LinExpr`. -/
inductive ConstrArg where
  | bool (b : Bool)
  | linExpr (e : LinExpr)
deriving DecidableEq, Repr

/-- `Model.add_constr(lin_expr, name)`: a `bool` argument returns `None` at
once, touching neither registry nor backend; any `LinExpr` (the source has no
emptiness test) is handed to `solver.add_constr`, wrapped in a `Constr`
handle (embedded as its index/name pair), registered and returned. -/
def Model.add_constr (m : Model) (lin_expr : ConstrArg) (name : String) :
    Model × Option (Nat × String) :=
  match lin_expr with
  | ConstrArg.bool _ => (m, none)
  | ConstrArg.linExpr e =>
    let idx := m.solver.rows.length
    ({ m with
        solver := { m.solver with rows := m.solver.rows ++ [{ name := name, expr := e }] },
        constrs := m.constrs ++ [(idx, name)],
        constrs_by_name := dictSet name idx m.constrs_by_name },
     some (idx, name))

/-- `Model.copy(solver_name)`: builds a fresh model, replays every variable
(name, bounds, objective coefficient, kind) and then every constraint (body
fetched from the backend, re-added under its name), and finally executes
`copy.objective_const = self.get_objective_const()`.  `Model` defines no
method `get_objective_const` (only the property `objective_const`), so this
last statement raises `AttributeError` on every call and the replayed local
copy is discarded. -/
def Model.copy (m : Model) : Except String Model :=
  let c0 := Model.init (m.objId + 1) m.name m.sense
  let c1 := m.vars.foldl
    (fun acc v =>
      let d := (m.solver.cols[v.idx]?).getD
        { name := "", lb := 0, ub := 0, obj := 0, var_type := "" }
      (acc.add_var v.name d.lb d.ub d.obj d.var_type).1)
    c0
  let c2 := m.constrs.foldl
    (fun acc c =>
      let e := ((m.solver.rows[c.1]?).map ConstrData.expr).getD LinExpr.empty
      (acc.add_constr (ConstrArg.linExpr e) c.2).1)
    c1
  let _ := c2
  Except.error "AttributeError: Model object has no attribute get_objective_const"

/-! Helper lemmas about the embedded Python-dict operations. -/

theorem dictLookup_eq_none_iff {α β : Type} [DecidableEq α] (k : α) (l : List (α × β)) :
    dictLookup k l = none ↔ k ∉ l.map Prod.fst := by
  induction l with
  | nil => simp [dictLookup]
  | cons p rest ih =>
    rw [dictLookup, List.map_cons]
    by_cases h : p.1 = k
    · rw [if_pos h]
      simp [h]
    · rw [if_neg h, ih]
      constructor
      · intro hk hmem
        rcases List.mem_cons.mp hmem with h1 | h1
        · exact h h1.symm
        · exact hk h1
      · intro hk hmem
        exact hk (List.mem_cons_of_mem _ hmem)

theorem mem_of_dictLookup_eq_some {α β : Type} [DecidableEq α] {k : α} {v : β}
    {l : List (α × β)} (h : dictLookup k l = some v) : k ∈ l.map Prod.fst := by
  induction l with
  | nil => simp [dictLookup] at h
  | cons p rest ih =>
    by_cases hp : p.1 = k
    · simp [hp]
    · rw [dictLookup, if_neg hp] at h
      simp [ih h]

theorem dictLookup_mem_nodup {α β : Type} [DecidableEq α] {l : List (α × β)}
    (hnd : (l.map Prod.fst).Nodup) {p : α × β} (hp : p ∈ l) :
    dictLookup p.1 l = some p.2 := by
  induction l with
  | nil => cases hp
  | cons q rest ih =>
    rcases List.mem_cons.mp hp with hq | hp2
    · rw [hq, dictLookup, if_pos rfl]
    · have hne : q.1 ≠ p.1 := by
        intro hcontra
        have : q.1 ∈ rest.map Prod.fst := by
          rw [hcontra]; exact List.mem_map_of_mem Prod.fst hp2
        exact (List.nodup_cons.mp hnd).1 this
      rw [dictLookup, if_neg hne]
      exact ih (List.nodup_cons.mp hnd).2 hp2

theorem dictSet_map_fst_of_mem {α β : Type} [DecidableEq α] (k : α) (v : β)
    {l : List (α × β)} (h : k ∈ l.map Prod.fst) :
    (dictSet k v l).map Prod.fst = l.map Prod.fst := by
  induction l with
  | nil => simp at h
  | cons p rest ih =>
    by_cases hp : p.1 = k
    · simp [dictSet, hp]
    · have h2 : k ∈ rest.map Prod.fst := by
        rcases List.mem_cons.mp h with h1 | h1
        · exact absurd h1.symm hp
        · exact h1
      simp [dictSet, hp, ih h2]

theorem dictSet_map_fst_of_not_mem {α β : Type} [DecidableEq α] (k : α) (v : β)
    {l : List (α × β)} (h : k ∉ l.map Prod.fst) :
    (dictSet k v l).map Prod.fst = l.map Prod.fst ++ [k] := by
  induction l with
  | nil => simp [dictSet]
  | cons p rest ih =>
    have hp : p.1 ≠ k := by
      intro hcontra; exact h (by simp [hcontra])
    have h2 : k ∉ rest.map Prod.fst := by
      intro hcontra; exact h (by simp [hcontra])
    simp [dictSet, hp, ih h2]

theorem dictSet_length_of_mem {α β : Type} [DecidableEq α] (k : α) (v : β)
    {l : List (α × β)} (h : k ∈ l.map Prod.fst) :
    (dictSet k v l).length = l.length := by
  induction l with
  | nil => simp at h
  | cons p rest ih =>
    by_cases hp : p.1 = k
    · simp [dictSet, hp]
    · have h2 : k ∈ rest.map Prod.fst := by
        rcases List.mem_cons.mp h with h1 | h1
        · exact absurd h1.symm hp
        · exact h1
      simp [dictSet, hp, ih h2]

theorem dictErase_map_fst {α β : Type} [DecidableEq α] (k : α) (l : List (α × β)) :
    (dictErase k l).map Prod.fst = (l.map Prod.fst).erase k := by
  induction l with
  | nil => simp [dictErase]
  | cons p rest ih =>
    by_cases hp : p.1 = k
    · simp [dictErase, hp, List.erase_cons]
    · simp [dictErase, hp, ih, List.erase_cons]

theorem dictErase_length_le {α β : Type} [DecidableEq α] (k : α) (l : List (α × β)) :
    (dictErase k l).length ≤ l.length := by
  induction l with
  | nil => simp [dictErase]
  | cons p rest ih =>
    rw [dictErase]
    by_cases hp : p.1 = k
    · rw [if_pos hp]
      simp only [List.length_cons]
      omega
    · rw [if_neg hp]
      simp only [List.length_cons]
      omega

theorem dictLookup_dictSet_self {α β : Type} [DecidableEq α] (k : α) (v : β)
    (l : List (α × β)) : dictLookup k (dictSet k v l) = some v := by
  induction l with
  | nil => simp [dictSet, dictLookup]
  | cons p rest ih =>
    by_cases hp : p.1 = k <;> simp [dictSet, dictLookup, hp, ih]

theorem dictLookup_dictErase_self {α β : Type} [DecidableEq α] (k : α)
    {l : List (α × β)} (hnd : (l.map Prod.fst).Nodup) :
    dictLookup k (dictErase k l) = none := by
  rw [dictLookup_eq_none_iff, dictErase_map_fst]
  exact hnd.not_mem_erase

theorem dictLookup_append_self {α β : Type} [DecidableEq α] (k : α) (v : β)
    {l : List (α × β)} (h : dictLookup k l = none) :
    dictLookup k (l ++ [(k, v)]) = some v := by
  induction l with
  | nil => simp [dictLookup]
  | cons p rest ih =>
    by_cases hp : p.1 = k
    · rw [dictLookup, if_pos hp] at h; cases h
    · rw [dictLookup, if_neg hp] at h
      rw [List.cons_append, dictLookup, if_neg hp]
      exact ih h

theorem addIdx_nodup (e : LinExpr) (k : Nat) (c : Coef)
    (hnd : (e.expr.map Prod.fst).Nodup) :
    (((e.addIdx k c).expr).map Prod.fst).Nodup := by
  unfold LinExpr.addIdx
  cases hL : dictLookup k e.expr with
  | none =>
    have hk : k ∉ e.expr.map Prod.fst := (dictLookup_eq_none_iff k e.expr).mp hL
    simp only [List.map_append, List.map_cons, List.map_nil]
    rw [List.nodup_append]
    refine ⟨hnd, List.nodup_singleton k, ?_⟩
    intro a ha hb
    rw [List.mem_singleton] at hb
    exact hk (hb ▸ ha)
  | some c0 =>
    dsimp only
    by_cases hc : -EPS ≤ c0 + c ∧ c0 + c ≤ EPS
    · rw [if_pos hc]
      dsimp only
      rw [dictErase_map_fst]
      exact hnd.erase k
    · rw [if_neg hc]
      dsimp only
      rw [dictSet_map_fst_of_mem k (c0 + c) (mem_of_dictLookup_eq_some hL)]
      exact hnd

theorem foldl_addIdx_nodup (l : List (Var × Coef)) (e : LinExpr)
    (hnd : (e.expr.map Prod.fst).Nodup) :
    (((l.foldl (fun acc p => if p.2 = 0 then acc else acc.add_var p.1 p.2) e).expr).map
        Prod.fst).Nodup := by
  induction l generalizing e with
  | nil => exact hnd
  | cons p rest ih =>
    rw [List.foldl_cons]
    by_cases h : p.2 = 0
    · rw [if_pos h]; exact ih e hnd
    · rw [if_neg h]; exact ih _ (addIdx_nodup e p.1.idx p.2 hnd)

theorem pairList_eq_of_map_eq {α β : Type} {l1 l2 : List (α × β)}
    (h1 : l1.map Prod.fst = l2.map Prod.fst) (h2 : l1.map Prod.snd = l2.map Prod.snd) :
    l1 = l2 := by
  induction l1 generalizing l2 with
  | nil => cases l2 with
    | nil => rfl
    | cons q rest2 => simp at h1
  | cons p rest ih =>
    cases l2 with
    | nil => simp at h1
    | cons q rest2 =>
      simp only [List.map_cons, List.cons.injEq] at h1 h2
      have hpq : p = q := Prod.ext h1.1 h2.1
      rw [hpq, ih h1.2 h2.2]

theorem LinExpr.equals_self (e : LinExpr) (hnd : (e.expr.map Prod.fst).Nodup) :
    e.equals e = true := by
  unfold LinExpr.equals
  rw [if_neg (by simp), if_neg (by simp), if_neg (by simp)]
  rw [List.all_eq_true]
  intro p hp
  rw [dictLookup_mem_nodup hnd hp]
  simp

/-! Claim theorems. -/

/-- C1: `LinExpr.__mul__` evaluated at the failing inputs.  Multiplying the
sensed expression with terms 2·x0, constant 5 and sense "<" by -1 scales the
coefficients and the constant of the returned product but leaves the
product's sense at "<" (not flipped to ">"), while the operand itself comes
out of the call with its sense mutated to ">".  For an operand with sense ">"
the two successive (non-exclusive) `if` statements of the source flip its
sense twice, so there too the product keeps the unflipped sense. -/
theorem C1_mul_failing_input :
    LinExpr.mul { const := 5, expr := [(0, 2)], sense := "<" } (-1)
      = ({ const := -5, expr := [(0, -2)], sense := "<" },
         { const := 5, expr := [(0, 2)], sense := ">" })
    ∧ LinExpr.mul { const := 0, expr := [(0, 1)], sense := ">" } (-1)
      = ({ const := 0, expr := [(0, -1)], sense := ">" },
         { const := 0, expr := [(0, 1)], sense := ">" }) := by
  constructor
  · norm_num [LinExpr.mul, GREATER_OR_EQUAL, LESS_OR_EQUAL, Prod.ext_iff, LinExpr.mk.injEq]
  · norm_num [LinExpr.mul, GREATER_OR_EQUAL, LESS_OR_EQUAL, Prod.ext_iff, LinExpr.mk.injEq]

/-- C2: the `Model.cuts` setter evaluated at the failing input: with prior
setting 1, assigning 5 fires the warning (whose text promises to keep the old
setting) but stores 5 anyway; an in-range assignment stores the value with no
warning. -/
theorem C2_cuts_failing_input :
    Model.cutsSetter 1 5 = (5, true) ∧ Model.cutsSetter 1 2 = (2, false) := by
  decide

/-- C3 counterexample: with status ERROR (likewise INT_INFEASIBLE) the claim
requires a solution-not-available failure, but `Var.x` and `Var.xi` fall
through all four guards and forward the backend value. -/
theorem C3_counterexample :
    Var.x Status.ERROR 0 = Except.ok 0 ∧ Var.xi Status.INT_INFEASIBLE 0 = Except.ok 0 :=
  ⟨rfl, rfl⟩

/-- C3 (amended): `Var.x` and `Var.xi` fail, with the message identifying the
reason, exactly when the status is LOADED, INFEASIBLE, CUTOFF, UNBOUNDED or
NO_SOLUTION_FOUND, and return the backend value for OPTIMAL, FEASIBLE, ERROR
and INT_INFEASIBLE; `Var.rc` fails whenever the status is not exactly
OPTIMAL. -/
theorem C3_query_guards (s : Status) (v : Coef) :
    (s = Status.LOADED →
      Var.x s v = Except.error "Model was not optimized, solution not available.")
  ∧ (s = Status.INFEASIBLE ∨ s = Status.CUTOFF →
      Var.x s v = Except.error "Infeasible model, solution not available.")
  ∧ (s = Status.UNBOUNDED →
      Var.x s v = Except.error "Unbounded model, solution not available.")
  ∧ (s = Status.NO_SOLUTION_FOUND →
      Var.x s v = Except.error "Solution not found during optimization.")
  ∧ (s = Status.OPTIMAL ∨ s = Status.FEASIBLE ∨ s = Status.ERROR ∨ s = Status.INT_INFEASIBLE →
      Var.x s v = Except.ok v)
  ∧ Var.xi s v = Var.x s v
  ∧ (s ≠ Status.OPTIMAL → Var.rc s v = Except.error "Solution not available.")
  ∧ (s = Status.OPTIMAL → Var.rc s v = Except.ok v) := by
  cases s <;> simp [Var.x, Var.xi, Var.rc]

/-- C3 witness: the amended theorem applied at status LOADED (query refused
with the not-optimized message) and at status FEASIBLE (reduced cost refused
although primal values are served). -/
theorem C3_query_guards_witness :
    Var.x Status.LOADED 0 = Except.error "Model was not optimized, solution not available."
    ∧ Var.rc Status.FEASIBLE 0 = Except.error "Solution not available." :=
  ⟨(C3_query_guards Status.LOADED 0).1 rfl,
   (C3_query_guards Status.FEASIBLE 0).2.2.2.2.2.2.1 (by decide)⟩

/-- C4: `LinExpr.equals` evaluated at the failing input: the two expressions
share variable 0 with coefficients 2 and 5 (differing by far more than 1e-12)
and have equal constant, sense and term count, yet `equals` returns true — the
comparison loop reads `self.expr` on both sides and never consults
`other.expr`. -/
theorem C4_equals_failing_input :
    LinExpr.equals { const := 0, expr := [(0, 2)], sense := "<" }
        { const := 0, expr := [(0, 5)], sense := "<" } = true
    ∧ ¬(|(2 : Coef) - 5| ≤ 1 / 1000000000000) := by
  constructor
  · norm_num [LinExpr.equals, dictLookup]
  · norm_num

/-- C5: `CutPool.add` rejects exactly when a stored cut at one of the
positions in the bucket of the incoming hash satisfies `equals`, and then
leaves the pool untouched; otherwise it appends the cut to the ordered store
and records its position under its hash, returning true.  In particular on a
fresh pool a cut (with duplicate-free term keys, as every expression built by
`add_var` has) is first accepted, the store growing to one entry, and the
same cut resubmitted is rejected with the pool unchanged. -/
theorem C5_cutpool_add (pool : CutPool) (cut : LinExpr)
    (hnd : (cut.expr.map Prod.fst).Nodup) :
    (((dictLookup cut.hashEl pool.pos).getD []).any
        (fun p => ((pool.cuts[p]?).map (fun c => c.equals cut)).getD false) = true →
      CutPool.add pool cut = (pool, false))
  ∧ (((dictLookup cut.hashEl pool.pos).getD []).any
        (fun p => ((pool.cuts[p]?).map (fun c => c.equals cut)).getD false) = false →
      CutPool.add pool cut
        = ({ cuts := pool.cuts ++ [cut],
             pos := dictSet cut.hashEl
               (((dictLookup cut.hashEl pool.pos).getD []) ++ [pool.cuts.length]) pool.pos },
           true))
  ∧ CutPool.add { cuts := [], pos := [] } cut
      = ({ cuts := [cut], pos := [(cut.hashEl, [0])] }, true)
  ∧ CutPool.add ({ cuts := [cut], pos := [(cut.hashEl, [0])] } : CutPool) cut
      = ({ cuts := [cut], pos := [(cut.hashEl, [0])] }, false) := by
  refine ⟨?_, ?_, ?_, ?_⟩
  · intro h
    simp [CutPool.add, h]
  · intro h
    simp [CutPool.add, h]
  · simp [CutPool.add, dictLookup, dictSet]
  · simp [CutPool.add, dictLookup, LinExpr.equals_self cut hnd]

/-- C5 witness: the theorem applied to a concrete single-term cut: the second
submission to the pool holding it is rejected without change. -/
theorem C5_cutpool_add_witness :
    CutPool.add
        ({ cuts := [{ const := 0, expr := [(0, 1)], sense := "<" }],
           pos := [(LinExpr.hashEl { const := 0, expr := [(0, 1)], sense := "<" }, [0])] } :
          CutPool)
        { const := 0, expr := [(0, 1)], sense := "<" }
      = ({ cuts := [{ const := 0, expr := [(0, 1)], sense := "<" }],
           pos := [(LinExpr.hashEl { const := 0, expr := [(0, 1)], sense := "<" }, [0])] },
         false) :=
  (C5_cutpool_add { cuts := [], pos := [] } { const := 0, expr := [(0, 1)], sense := "<" }
    (by decide)).2.2.2

/-- C6: `Model.copy` evaluated at the failing input (a fresh empty model; the
same happens for every model): after replaying variables and constraints onto
the local copy, the source executes `self.get_objective_const()`, a method
`Model` does not define (only the property `objective_const` exists), so the
call raises AttributeError and no copied model is ever returned. -/
theorem C6_copy_failing_input :
    Model.copy (Model.init 0 "m" "MIN")
      = Except.error "AttributeError: Model object has no attribute get_objective_const" :=
  rfl

/-- C7 counterexample: inserting the terms 1·(index 0) and 2·(index 1) in the
two opposite orders produces expressions with the same term set, constant and
sense, yet different hash tuples: `__hash__` lists indices and coefficients
in dict insertion order. -/
theorem C7_counterexample :
    ((LinExpr.empty.add_var ⟨0, 0, "x"⟩ 1).add_var ⟨0, 1, "y"⟩ 2).expr = [(0, 1), (1, 2)]
    ∧ ((LinExpr.empty.add_var ⟨0, 1, "y"⟩ 2).add_var ⟨0, 0, "x"⟩ 1).expr = [(1, 2), (0, 1)]
    ∧ ((LinExpr.empty.add_var ⟨0, 0, "x"⟩ 1).add_var ⟨0, 1, "y"⟩ 2).hashEl
        ≠ ((LinExpr.empty.add_var ⟨0, 1, "y"⟩ 2).add_var ⟨0, 0, "x"⟩ 1).hashEl := by
  decide

/-- C7 (amended): the hash tuple is determined by — and determines — the term
sequence in dict insertion order together with the constant and the sense:
two expressions hash alike exactly when their term dictionaries list the same
variables with the same coefficients in the same insertion order and their
constants and senses agree.  Order-independence fails, see the
counterexample. -/
theorem C7_hash_characterization (e1 e2 : LinExpr) :
    e1.hashEl = e2.hashEl
      ↔ (e1.expr = e2.expr ∧ e1.const = e2.const ∧ e1.sense = e2.sense) := by
  constructor
  · intro h
    unfold LinExpr.hashEl at h
    have hlen : e1.expr.length = e2.expr.length := by
      have hl := congrArg List.length h
      simp only [List.length_append, List.length_map, List.length_cons,
        List.length_nil] at hl
      omega
    have hAB := List.append_inj h (by simp [hlen])
    have hA := (List.append_inj hAB.1 (by simp [hlen])).1
    have hB := (List.append_inj hAB.1 (by simp [hlen])).2
    have hT := hAB.2
    simp only [List.cons.injEq, HashAtom.num.injEq, HashAtom.str.injEq, and_true] at hT
    have hfst : e1.expr.map Prod.fst = e2.expr.map Prod.fst := by
      have h1 := congrArg (List.map HashAtom.toCoef) hA
      simp only [List.map_map, Function.comp_def, HashAtom.toCoef] at h1
      have h2 : (e1.expr.map Prod.fst).map (fun n : Nat => (n : Coef))
          = (e2.expr.map Prod.fst).map (fun n : Nat => (n : Coef)) := by
        simpa [List.map_map, Function.comp_def] using h1
      exact List.map_injective_iff.mpr Nat.cast_injective h2
    have hsnd : e1.expr.map Prod.snd = e2.expr.map Prod.snd := by
      have h1 := congrArg (List.map HashAtom.toCoef) hB
      simpa [List.map_map, Function.comp_def, HashAtom.toCoef] using h1
    exact ⟨pairList_eq_of_map_eq hfst hsnd, hT.1, hT.2⟩
  · intro h
    unfold LinExpr.hashEl
    rw [h.1, h.2.1, h.2.2]

/-- C8 counterexample: the empty expression (zero terms, constant 0, no
sense) is not a no-op for `Model.add_constr`: on a fresh model it registers a
row with the backend, appends a constraint handle and returns it. -/
theorem C8_counterexample :
    (Model.add_constr (Model.init 0 "m" "MIN") (ConstrArg.linExpr LinExpr.empty) "c").2
      = some (0, "c")
    ∧ (Model.add_constr (Model.init 0 "m" "MIN") (ConstrArg.linExpr LinExpr.empty) "c").1.constrs
      = [(0, "c")] := by
  decide

/-- C8 (amended): a boolean argument to `Model.add_constr` is a no-op that
returns no handle and leaves the registry (handle list and name map) and the
backend untouched; every `LinExpr` argument — the source never tests for
emptiness or for a sense — appends exactly one handle carrying the next row
index and the given name, registers it in the list, the name map and the
backend rows, and returns it. -/
theorem C8_add_constr (m : Model) (b : Bool) (e : LinExpr) (name : String) :
    Model.add_constr m (ConstrArg.bool b) name = (m, none)
  ∧ (Model.add_constr m (ConstrArg.linExpr e) name).2 = some (m.solver.rows.length, name)
  ∧ (Model.add_constr m (ConstrArg.linExpr e) name).1.constrs
      = m.constrs ++ [(m.solver.rows.length, name)]
  ∧ (Model.add_constr m (ConstrArg.linExpr e) name).1.solver.rows
      = m.solver.rows ++ [{ name := name, expr := e }]
  ∧ (Model.add_constr m (ConstrArg.linExpr e) name).1.constrs_by_name
      = dictSet name m.solver.rows.length m.constrs_by_name
  ∧ (Model.add_constr m (ConstrArg.linExpr e) name).1.vars = m.vars :=
  ⟨rfl, rfl, rfl, rfl, rfl, rfl⟩

/-- C9 counterexample: constructing an expression with the single coefficient
1e-9 — not exactly zero, hence not skipped — stores a term whose coefficient
lies strictly inside the ±1e-8 band: insertion of a term for a fresh variable
never applies the near-zero elimination. -/
theorem C9_counterexample :
    (LinExpr.init [⟨0, 0, "x"⟩] [1 / 1000000000] 0 "").expr = [(0, 1 / 1000000000)]
    ∧ (-EPS ≤ (1 / 1000000000 : Coef) ∧ (1 / 1000000000 : Coef) ≤ EPS)
    ∧ (1 / 1000000000 : Coef) ≠ 0 := by
  refine ⟨?_, ⟨?_, ?_⟩, ?_⟩
  · norm_num [LinExpr.init, LinExpr.add_var, LinExpr.addIdx, dictLookup]
  · norm_num [EPS]
  · norm_num [EPS]
  · norm_num

/-- C9 (amended): updating a term already present removes it entirely when
the merged coefficient lands within ±EPS, and otherwise stores the merged
coefficient; but a variable not yet present has its coefficient appended
verbatim — even one within ±EPS of zero — and the constructor skips only
coefficients that are exactly zero. -/
theorem C9_near_zero (e : LinExpr) (v : Var) (c c0 : Coef)
    (hnd : (e.expr.map Prod.fst).Nodup) :
    (dictLookup v.idx e.expr = some c0 → -EPS ≤ c0 + c → c0 + c ≤ EPS →
      dictLookup v.idx (e.add_var v c).expr = none)
  ∧ (dictLookup v.idx e.expr = some c0 → ¬(-EPS ≤ c0 + c ∧ c0 + c ≤ EPS) →
      dictLookup v.idx (e.add_var v c).expr = some (c0 + c))
  ∧ (dictLookup v.idx e.expr = none →
      (e.add_var v c).expr = e.expr ++ [(v.idx, c)]
      ∧ dictLookup v.idx (e.add_var v c).expr = some c) := by
  refine ⟨?_, ?_, ?_⟩
  · intro hL h1 h2
    unfold LinExpr.add_var LinExpr.addIdx
    rw [hL]
    dsimp only
    rw [if_pos ⟨h1, h2⟩]
    exact dictLookup_dictErase_self _ hnd
  · intro hL hc
    unfold LinExpr.add_var LinExpr.addIdx
    rw [hL]
    dsimp only
    rw [if_neg hc]
    exact dictLookup_dictSet_self _ _ _
  · intro hL
    unfold LinExpr.add_var LinExpr.addIdx
    rw [hL]
    exact ⟨rfl, dictLookup_append_self _ _ hL⟩

/-- C9 witness: the amended theorem applied to the expression holding 1·x0,
adding -1·x0: the merged coefficient 0 falls inside ±EPS and the term is
removed. -/
theorem C9_near_zero_witness :
    dictLookup 0
        ((LinExpr.add_var { const := 0, expr := [(0, 1)], sense := "" } ⟨0, 0, "x"⟩ (-1)).expr)
      = none :=
  (C9_near_zero { const := 0, expr := [(0, 1)], sense := "" } ⟨0, 0, "x"⟩ (-1) 1
    (by decide)).1 rfl (by simp [EPS]) (by simp [EPS])

/-- C10: expression terms are keyed by the registry index: a handle with the
same index as one already present — whatever its owning model or its name —
updates the very same entry (`add_var` factors through the index alone), an
update at a present index never increases the term count (it merges or
cancels), key-uniqueness of the term dictionary is preserved, and every
expression built by the constructor has at most one term per index. -/
theorem C10_keyed_by_index (e : LinExpr) (v w : Var) (c : Coef)
    (hidx : w.idx = v.idx) (hnd : (e.expr.map Prod.fst).Nodup) :
    e.add_var w c = e.add_var v c
  ∧ (v.idx ∈ e.expr.map Prod.fst → (e.add_var w c).expr.length ≤ e.expr.length)
  ∧ ((e.add_var w c).expr.map Prod.fst).Nodup
  ∧ (∀ (vs : List Var) (cs : List Coef) (k : Coef) (s : String),
      ((LinExpr.init vs cs k s).expr.map Prod.fst).Nodup) := by
  refine ⟨by rw [LinExpr.add_var, LinExpr.add_var, hidx], ?_, ?_, ?_⟩
  · intro hmem
    rw [LinExpr.add_var, hidx, LinExpr.addIdx]
    rcases h : dictLookup v.idx e.expr with _ | c0
    · exact absurd hmem ((dictLookup_eq_none_iff _ _).mp h)
    · dsimp only
      by_cases hc : -EPS ≤ c0 + c ∧ c0 + c ≤ EPS
      · rw [if_pos hc]
        exact dictErase_length_le _ _
      · rw [if_neg hc]
        exact le_of_eq (dictSet_length_of_mem _ _ hmem)
  · rw [LinExpr.add_var]
    exact addIdx_nodup e w.idx c hnd
  · intro vs cs k s
    rw [LinExpr.init]
    exact foldl_addIdx_nodup (vs.zip cs) _ (by simp)

/-- C10 witness: the theorem applied at the expression 2·x0 and a handle for
index 0 owned by a different model object: the foreign handle merges with the
stored term exactly as the original handle would. -/
theorem C10_keyed_by_index_witness :
    LinExpr.add_var { const := 0, expr := [(0, 2)], sense := "" } ⟨1, 0, "y"⟩ 3
      = LinExpr.add_var { const := 0, expr := [(0, 2)], sense := "" } ⟨0, 0, "x"⟩ 3 :=
  (C10_keyed_by_index { const := 0, expr := [(0, 2)], sense := "" } ⟨0, 0, "x"⟩ ⟨1, 0, "y"⟩ 3
    rfl (by decide)).1

end Mip
